import Mathlib

/-!
Verification of the recharts-env-monitor dashboard (src/App.tsx, src/config).

The component state, the row-stream handling of `fetchInfluxData`, the poll
cycle driven by `fetchData`, the `getLatestValue` summary, the interval
lifecycle and the configuration resolution are embedded shallowly below.
Numeric sample values are modelled as exact rationals; timestamps are epoch
milliseconds as produced by `new Date(obj._time).getTime()`.
-/

namespace EnvMonitor

/-- One chart sample (interface `ChartData`): an epoch-millisecond timestamp
and an optional numeric value. `value` is `none` when the row carried no
`_value` (a sensor gap): the `next` callback then pushes a point without the
`value` property. -/
structure ChartData where
  time : Int
  value : Option ℚ
deriving Repr, DecidableEq

/-- One streamed database row as seen by the `next` callback after
`tableMeta.toObject(row)`: the `_time` column already converted to epoch
milliseconds, and the optional `_value` column. -/
structure Row where
  time : Int
  value : Option ℚ
deriving Repr, DecidableEq

/-- Body of the `next` row callback of `fetchInfluxData`: if `obj._value` is
non-null, push `{time, value}` onto `results`; otherwise push a point with the
same timestamp but no `value`. Exactly one point is pushed per row. -/
def nextCallback (results : List ChartData) (row : Row) : List ChartData :=
  if row.value.isSome then
    results ++ [{ time := row.time, value := row.value }]
  else
    results ++ [{ time := row.time, value := none }]

/-- The `results` array accumulated by `fetchInfluxData` once the whole row
stream has been fed through the `next` callback, in stream order. This is the
series handed to `setData` by the `complete` callback. -/
def processRows (rows : List Row) : List ChartData :=
  rows.foldl nextCallback []

/-- The point produced for a single row. -/
def pointOfRow (r : Row) : ChartData :=
  { time := r.time, value := r.value }

theorem nextCallback_eq (results : List ChartData) (row : Row) :
    nextCallback results row = results ++ [pointOfRow row] := by
  unfold nextCallback pointOfRow
  cases h : row.value <;> simp [h]

theorem processRows_foldl_acc (rows : List Row) (acc : List ChartData) :
    rows.foldl nextCallback acc = acc ++ rows.map pointOfRow := by
  induction rows generalizing acc with
  | nil => simp
  | cons r rest ih => simp [List.foldl_cons, nextCallback_eq, ih]

theorem processRows_eq_map (rows : List Row) :
    processRows rows = rows.map pointOfRow := by
  simpa using processRows_foldl_acc rows []

/-- JavaScript `Number.prototype.toFixed(1)` applied to an exact rational: the
integer `n` with `n / 10` nearest the value, ties resolved toward the larger
`n`, rendered with one digit after the decimal point. -/
def toFixed1 (q : ℚ) : String :=
  let n : ℤ := Int.floor (q * 10 + 1 / 2)
  let sign := if n < 0 then "-" else ""
  sign ++ toString (n.natAbs / 10) ++ "." ++ toString (n.natAbs % 10)

/-- The backward for-loop of `getLatestValue`: the `value` of the point with
the highest index whose `value` is non-null, or `none` when every value is
absent. -/
def lastPresentValue : List ChartData → Option ℚ
  | [] => none
  | p :: rest =>
    match lastPresentValue rest with
    | some v => some v
    | none => p.value

/-- `getLatestValue` (src/App.tsx): returns the fallback `"N/A"` on an empty
series; otherwise walks the series from the last index backward and returns
the first non-null value formatted with `toFixed(1)`, or `"N/A"` when every
value is null. -/
def getLatestValue (data : List ChartData) : String :=
  if data.length = 0 then "N/A"
  else
    match lastPresentValue data with
    | some v => toFixed1 v
    | none => "N/A"

theorem lastPresentValue_append (a b : List ChartData) :
    lastPresentValue (a ++ b) =
      match lastPresentValue b with
      | some v => some v
      | none => lastPresentValue a := by
  induction a with
  | nil => cases h : lastPresentValue b <;> simp [lastPresentValue, h]
  | cons p rest ih =>
    rw [List.cons_append]
    show (match lastPresentValue (rest ++ b) with
          | some v => some v
          | none => p.value) = _
    rw [ih]
    cases h : lastPresentValue b <;> cases h2 : lastPresentValue rest <;>
      simp [lastPresentValue, h2]

theorem lastPresentValue_of_all_none (l : List ChartData)
    (h : ∀ p ∈ l, p.value = none) : lastPresentValue l = none := by
  induction l with
  | nil => rfl
  | cons p rest ih =>
    have hrest : lastPresentValue rest = none := ih fun q hq => h q (List.mem_cons_of_mem _ hq)
    simp [lastPresentValue, hrest, h p (List.mem_cons_self p rest)]

theorem toFixed1_eq (q : ℚ) (n : ℤ) (h : Int.floor (q * 10 + 1 / 2) = n) :
    toFixed1 q =
      (if n < 0 then "-" else "") ++ toString (n.natAbs / 10) ++ "."
        ++ toString (n.natAbs % 10) := by
  have h2 : Int.floor (q * 10 + (2 : ℚ)⁻¹) = n := by rwa [one_div] at h
  simp [toFixed1, h2]

/-- Claim C1: for every series, `getLatestValue` returns the last point's value
formatted to one decimal when the last point has a present value; when the last
K points are all valueless it returns the most recent point with a present
value, skipping the gaps, formatted to one decimal; and when no point has a
present value (including the empty series) it returns the placeholder
`"N/A"`. The first two cases are the instance `l₂ = []` and general `l₂` of
the first conjunct. -/
theorem C1_getLatestValue_spec (data : List ChartData) :
    (∀ l₁ p v l₂, data = l₁ ++ p :: l₂ → p.value = some v →
        (∀ q ∈ l₂, q.value = none) → getLatestValue data = toFixed1 v)
    ∧ ((∀ p ∈ data, p.value = none) → getLatestValue data = "N/A") := by
  constructor
  · rintro l₁ p v l₂ rfl hp hgap
    have h₂ : lastPresentValue l₂ = none := lastPresentValue_of_all_none l₂ hgap
    have hlpv : lastPresentValue (l₁ ++ p :: l₂) = some v := by
      rw [lastPresentValue_append]
      simp [lastPresentValue, h₂, hp]
    simp [getLatestValue, hlpv]
  · intro hall
    by_cases hd : data.length = 0
    · simp [getLatestValue, hd]
    · have h := lastPresentValue_of_all_none data hall
      simp [getLatestValue, hd, h]

/-- Witness for C1 at the spec's example series: last value present gives
`"20.4"`; with the last point valueless the skip-back rule gives `"20.1"`; an
all-valueless series gives `"N/A"`. -/
theorem C1_getLatestValue_spec_witness :
    getLatestValue [⟨0, some (201/10)⟩, ⟨300000, none⟩, ⟨600000, some (204/10)⟩] = "20.4"
    ∧ getLatestValue [⟨0, some (201/10)⟩, ⟨300000, none⟩, ⟨600000, none⟩] = "20.1"
    ∧ getLatestValue [⟨0, none⟩] = "N/A" := by
  refine ⟨?_, ?_, ?_⟩
  · have h := (C1_getLatestValue_spec
        [⟨0, some (201/10)⟩, ⟨300000, none⟩, ⟨600000, some (204/10)⟩]).1
      [⟨0, some (201/10)⟩, ⟨300000, none⟩] ⟨600000, some (204/10)⟩ (204/10) []
      rfl rfl (by simp)
    rw [h, toFixed1_eq (204/10) 204 (by norm_num)]; decide
  · have h := (C1_getLatestValue_spec
        [⟨0, some (201/10)⟩, ⟨300000, none⟩, ⟨600000, none⟩]).1
      [] ⟨0, some (201/10)⟩ (201/10) [⟨300000, none⟩, ⟨600000, none⟩]
      rfl rfl (by simp)
    rw [h, toFixed1_eq (201/10) 201 (by norm_num)]; decide
  · exact (C1_getLatestValue_spec [⟨0, none⟩]).2 (by simp)

/-- Claim C2: for every row stream delivered by the database, the output
sequence of the `next` callback has exactly one point per input row, in input
order: same length, and the i-th point is built from the i-th row. -/
theorem C2_one_point_per_row (rows : List Row) :
    (processRows rows).length = rows.length
    ∧ ∀ i : ℕ, (processRows rows)[i]? = (rows[i]?).map pointOfRow := by
  rw [processRows_eq_map]
  exact ⟨List.length_map _ _, fun i => List.getElem?_map _ _ _⟩

/-- Claim C3: every input row whose value is null/absent yields a point with
that row's timestamp and the value unset — not value 0, and not a dropped
point (the output length equals the input length). -/
theorem C3_gap_row_emits_unset_point (rows : List Row) (i : ℕ)
    (h : i < rows.length) (hv : (rows.get ⟨i, h⟩).value = none) :
    (processRows rows).length = rows.length
    ∧ (processRows rows)[i]? = some { time := (rows.get ⟨i, h⟩).time, value := none } := by
  rw [processRows_eq_map]
  refine ⟨List.length_map _ _, ?_⟩
  rw [List.getElem?_map, List.getElem?_eq_getElem h]
  simp only [List.get_eq_getElem] at hv
  simp [pointOfRow, hv]

/-- Witness for C3: the one-row stream whose row has no value yields the
one-point series with the value unset. -/
theorem C3_gap_row_emits_unset_point_witness :
    (processRows [⟨42, none⟩]).length = 1
    ∧ (processRows [⟨42, none⟩])[0]? = some { time := 42, value := none } :=
  C3_gap_row_emits_unset_point [⟨42, none⟩] 0 (by decide) rfl

/-- The three metric fields fetched by the dashboard. -/
inductive MetricField
  | temperature
  | humidity
  | pressure
deriving Repr, DecidableEq

/-- The component state held in the `useState` hooks of `App`: the three metric
series, the loading flag and the error flag. -/
structure AppState where
  temperatureData : List ChartData
  humidityData : List ChartData
  pressureData : List ChartData
  loading : Bool
  error : Bool
deriving Repr, DecidableEq

/-- The initial `useState` values: empty series, `loading = true`,
`error = false`. -/
def initialState : AppState :=
  { temperatureData := [], humidityData := [], pressureData := []
    loading := true, error := false }

/-- The `setData` dispatcher passed to `fetchInfluxData` for a field:
`setTemperatureData`, `setHumidityData` or `setPressureData`. It replaces that
metric's series wholesale. -/
def setSeries (st : AppState) (f : MetricField) (d : List ChartData) : AppState :=
  match f with
  | .temperature => { st with temperatureData := d }
  | .humidity => { st with humidityData := d }
  | .pressure => { st with pressureData := d }

/-- Read one metric's series out of the component state. -/
def getSeries (st : AppState) : MetricField → List ChartData
  | .temperature => st.temperatureData
  | .humidity => st.humidityData
  | .pressure => st.pressureData

/-- How one `queryRows` stream settles: `some rows` when the whole row stream
is delivered and the `complete` callback fires, `none` when the `error`
callback fires. (`next` calls only mutate the local `results` array, so the
component state changes only at the settling callback.) -/
abbrev FetchOutcome := Option (List Row)

/-- Visible state change when one metric's stream settles: `complete` calls
`setData(results)` replacing that metric's series with the accumulated points;
`error` calls `setError(true)`. Neither callback touches the loading flag or
the other two series. -/
def applyOutcome (st : AppState) (f : MetricField) (o : FetchOutcome) : AppState :=
  match o with
  | some rows => setSeries st f (processRows rows)
  | none => { st with error := true }

/-- One scheduler event during a `fetchData` poll cycle. `startLoading` is the
synchronous `setLoading(true)`; `promiseAllResolved` is the `finally`
`setLoading(false)` — `queryRows` returns `undefined` immediately, so each
`fetchInfluxData` promise resolves as soon as its query is issued, before any
of its callbacks run, and `await Promise.all` therefore resolves before any
stream settles; `settled f` is the later `complete`/`error` callback of field
`f`, the three of which may arrive in any order. -/
inductive CycleEvent
  | startLoading
  | promiseAllResolved
  | settled (f : MetricField)
deriving Repr, DecidableEq

/-- The event sequence of one poll cycle whose three streams settle in the
order `order`. -/
def cycleEvents (order : List MetricField) : List CycleEvent :=
  CycleEvent.startLoading :: CycleEvent.promiseAllResolved :: order.map CycleEvent.settled

/-- State transition of a single cycle event, given how each field's stream
settles. -/
def stepEvent (outcome : MetricField → FetchOutcome) (st : AppState) :
    CycleEvent → AppState
  | .startLoading => { st with loading := true }
  | .promiseAllResolved => { st with loading := false }
  | .settled f => applyOutcome st f (outcome f)

/-- The component state at the end of one poll cycle: every cycle event
applied in order. -/
def runCycle (st : AppState) (outcome : MetricField → FetchOutcome)
    (order : List MetricField) : AppState :=
  (cycleEvents order).foldl (stepEvent outcome) st

/-- All intermediate states of one poll cycle (the rendered states), starting
from the state before the cycle. -/
def cycleTrace (st : AppState) (outcome : MetricField → FetchOutcome)
    (order : List MetricField) : List AppState :=
  (cycleEvents order).scanl (stepEvent outcome) st

theorem applyOutcome_loading (st : AppState) (f : MetricField) (o : FetchOutcome) :
    (applyOutcome st f o).loading = st.loading := by
  cases o <;> cases f <;> rfl

theorem applyOutcome_error_some (st : AppState) (f : MetricField) (rows : List Row) :
    (applyOutcome st f (some rows)).error = st.error := by
  cases f <;> rfl

theorem applyOutcome_error_mono (st : AppState) (f : MetricField) (o : FetchOutcome)
    (h : st.error = true) : (applyOutcome st f o).error = true := by
  cases o with
  | none => rfl
  | some rows => rw [applyOutcome_error_some]; exact h

theorem getSeries_setSeries_same (st : AppState) (f : MetricField) (d : List ChartData) :
    getSeries (setSeries st f d) f = d := by
  cases f <;> rfl

theorem getSeries_setSeries_other (st : AppState) (f g : MetricField)
    (d : List ChartData) (h : g ≠ f) : getSeries (setSeries st f d) g = getSeries st g := by
  cases f <;> cases g <;> first | rfl | exact absurd rfl h

theorem getSeries_applyOutcome_other (st : AppState) (f g : MetricField)
    (o : FetchOutcome) (h : g ≠ f) : getSeries (applyOutcome st f o) g = getSeries st g := by
  cases o with
  | none => cases g <;> rfl
  | some rows => exact getSeries_setSeries_other st f g _ h

/-- The settlement phase of a cycle: the three streams' callbacks applied in
their arrival order. -/
def settle (outcome : MetricField → FetchOutcome) (st : AppState)
    (order : List MetricField) : AppState :=
  order.foldl (fun s f => applyOutcome s f (outcome f)) st

theorem runCycle_eq_settle (st : AppState) (outcome : MetricField → FetchOutcome)
    (order : List MetricField) :
    runCycle st outcome order = settle outcome { st with loading := false } order := by
  unfold runCycle cycleEvents settle
  rw [List.foldl_cons, List.foldl_cons, List.foldl_map]
  rfl

theorem settle_loading (outcome : MetricField → FetchOutcome) (st : AppState)
    (order : List MetricField) : (settle outcome st order).loading = st.loading := by
  induction order generalizing st with
  | nil => rfl
  | cons g rest ih =>
    rw [settle, List.foldl_cons, ← settle, ih, applyOutcome_loading]

theorem settle_error_of_success (outcome : MetricField → FetchOutcome) (st : AppState)
    (order : List MetricField) (h : ∀ f ∈ order, outcome f ≠ none) :
    (settle outcome st order).error = st.error := by
  induction order generalizing st with
  | nil => rfl
  | cons g rest ih =>
    rw [settle, List.foldl_cons, ← settle]
    rw [ih _ fun f hf => h f (List.mem_cons_of_mem _ hf)]
    obtain ⟨rows, hrows⟩ := Option.ne_none_iff_exists.mp (h g (List.mem_cons_self g rest))
    rw [← hrows, applyOutcome_error_some]

theorem settle_error_mono (outcome : MetricField → FetchOutcome) (st : AppState)
    (order : List MetricField) (h : st.error = true) :
    (settle outcome st order).error = true := by
  induction order generalizing st with
  | nil => exact h
  | cons g rest ih =>
    rw [settle, List.foldl_cons, ← settle]
    exact ih _ (applyOutcome_error_mono _ _ _ h)

theorem settle_error_of_fail (outcome : MetricField → FetchOutcome) (st : AppState)
    (order : List MetricField) (f0 : MetricField) (hmem : f0 ∈ order)
    (hfail : outcome f0 = none) : (settle outcome st order).error = true := by
  induction order generalizing st with
  | nil => cases hmem
  | cons g rest ih =>
    rw [settle, List.foldl_cons, ← settle]
    rcases List.mem_cons.mp hmem with rfl | hrest
    · exact settle_error_mono _ _ _ (by rw [hfail]; rfl)
    · exact ih _ hrest

theorem getSeries_settle_of_not_mem (outcome : MetricField → FetchOutcome)
    (st : AppState) (order : List MetricField) (f : MetricField) (h : f ∉ order) :
    getSeries (settle outcome st order) f = getSeries st f := by
  induction order generalizing st with
  | nil => rfl
  | cons g rest ih =>
    rw [settle, List.foldl_cons, ← settle]
    rw [ih _ fun hf => h (List.mem_cons_of_mem _ hf)]
    exact getSeries_applyOutcome_other st g f _ fun hfg => h (hfg ▸ List.mem_cons_self g rest)

theorem getSeries_settle_of_mem (outcome : MetricField → FetchOutcome)
    (st : AppState) (order : List MetricField) (f : MetricField) (rows : List Row)
    (hrows : outcome f = some rows) (hmem : f ∈ order) :
    getSeries (settle outcome st order) f = processRows rows := by
  induction order generalizing st with
  | nil => cases hmem
  | cons g rest ih =>
    rw [settle, List.foldl_cons, ← settle]
    by_cases hf : f ∈ rest
    · exact ih _ hf
    · rcases List.mem_cons.mp hmem with rfl | hrest
      · rw [getSeries_settle_of_not_mem _ _ _ _ hf, hrows, applyOutcome,
          getSeries_setSeries_same]
      · exact absurd hrest hf

/-- A fully successful outcome: each stream delivers one row and completes. -/
def okOutcome : MetricField → FetchOutcome :=
  fun _ => some [{ time := 0, value := some 20 }]

/-- An outcome where exactly the humidity fetch fails. -/
def failHumidityOutcome : MetricField → FetchOutcome
  | .temperature => some [{ time := 0, value := some 20 }]
  | .humidity => none
  | .pressure => some [{ time := 0, value := some 20 }]

/-- A settlement order containing each of the three fields once. -/
def allFieldsOrder : List MetricField :=
  [.temperature, .humidity, .pressure]

/-- Claim C4, counterexample: run the first poll cycle from the initial state
with the humidity fetch failing, then a second cycle in which all three
fetches succeed. The successful cycle still ends with the error flag true —
`setError(false)` is never called — so the claim that a fully successful cycle
ends with `error = false` (clearing an earlier failure) is false on the code. -/
theorem C4_error_not_cleared_counterexample :
    failHumidityOutcome MetricField.humidity = none
    ∧ okOutcome MetricField.temperature ≠ none
    ∧ okOutcome MetricField.humidity ≠ none
    ∧ okOutcome MetricField.pressure ≠ none
    ∧ (runCycle (runCycle initialState failHumidityOutcome allFieldsOrder)
        okOutcome allFieldsOrder).error = true := by
  refine ⟨rfl, ?_, ?_, ?_, rfl⟩ <;> simp [okOutcome]

/-- Claim C4, amended: every poll cycle in which all three fetches succeed
ends with the loading flag false and each metric series replaced by the points
built from that cycle's rows, and leaves the error flag exactly as it was
before the cycle — in particular a successful cycle starting with
`error = false` ends with `error = false`, but an error flag set by an earlier
failed cycle is NOT cleared by a later fully successful cycle (the code never
calls `setError(false)`). -/
theorem C4_successful_cycle (st : AppState) (outcome : MetricField → FetchOutcome)
    (order : List MetricField) (hall : ∀ f, outcome f ≠ none)
    (horder : ∀ f, f ∈ order) :
    (runCycle st outcome order).loading = false
    ∧ (runCycle st outcome order).error = st.error
    ∧ ∀ f rows, outcome f = some rows →
        getSeries (runCycle st outcome order) f = processRows rows := by
  rw [runCycle_eq_settle]
  refine ⟨by rw [settle_loading], ?_, ?_⟩
  · rw [settle_error_of_success _ _ _ fun f _ => hall f]
  · intro f rows hrows
    exact getSeries_settle_of_mem _ _ _ _ _ hrows (horder f)

/-- Witness for C4 (amended) at a concrete fully successful cycle from the
initial state. -/
theorem C4_successful_cycle_witness :
    (runCycle initialState okOutcome allFieldsOrder).loading = false
    ∧ (runCycle initialState okOutcome allFieldsOrder).error = false
    ∧ getSeries (runCycle initialState okOutcome allFieldsOrder)
        MetricField.temperature = [{ time := 0, value := some 20 }] := by
  have h := C4_successful_cycle initialState okOutcome allFieldsOrder
    (fun f => by cases f <;> simp [okOutcome])
    (fun f => by cases f <;> simp [allFieldsOrder])
  exact ⟨h.1, h.2.1, by rw [h.2.2 _ [{ time := 0, value := some 20 }] rfl]; rfl⟩

/-- Claim C5: in every poll cycle where exactly one of the three fetches
fails, the other two fetch attempts still run to completion — their `complete`
callbacks replace their series with the fetched points, with no early abort of
the cycle — and the cycle ends with the error flag true (and loading false). -/
theorem C5_one_failure_cycle (st : AppState) (outcome : MetricField → FetchOutcome)
    (order : List MetricField) (f0 : MetricField) (hfail : outcome f0 = none)
    (_hsucc : ∀ f, f ≠ f0 → outcome f ≠ none) (horder : ∀ f, f ∈ order) :
    (runCycle st outcome order).loading = false
    ∧ (runCycle st outcome order).error = true
    ∧ ∀ f rows, f ≠ f0 → outcome f = some rows →
        getSeries (runCycle st outcome order) f = processRows rows := by
  rw [runCycle_eq_settle]
  refine ⟨by rw [settle_loading], ?_, ?_⟩
  · exact settle_error_of_fail _ _ _ f0 (horder f0) hfail
  · intro f rows _ hrows
    exact getSeries_settle_of_mem _ _ _ _ _ hrows (horder f)

/-- Witness for C5 at a concrete cycle where only the humidity fetch fails. -/
theorem C5_one_failure_cycle_witness :
    (runCycle initialState failHumidityOutcome allFieldsOrder).loading = false
    ∧ (runCycle initialState failHumidityOutcome allFieldsOrder).error = true
    ∧ getSeries (runCycle initialState failHumidityOutcome allFieldsOrder)
        MetricField.temperature = [{ time := 0, value := some 20 }] := by
  have h := C5_one_failure_cycle initialState failHumidityOutcome allFieldsOrder
    MetricField.humidity rfl
    (fun f => by cases f <;> simp [failHumidityOutcome])
    (fun f => by cases f <;> simp [allFieldsOrder])
  refine ⟨h.1, h.2.1, ?_⟩
  rw [h.2.2 MetricField.temperature [{ time := 0, value := some 20 }] (by simp) rfl]
  rfl

/-- Claim C6, evidence of the divergence: in a fully successful cycle from the
initial state, the rendered state right after `Promise.all` resolves (trace
index 2) already has `loading = false` although no stream has settled — every
`fetchInfluxData` promise resolves as soon as `queryRows` is invoked, so the
`finally` clause does not wait for the fetches — and the state after the first
stream settles (index 3) shows the temperature series populated while the
other two are still empty: the cycle's effects are applied mid-cycle, not
after all three streams have settled. -/
theorem C6_effects_applied_mid_cycle :
    (cycleTrace initialState okOutcome allFieldsOrder)[2]?
      = some { temperatureData := [], humidityData := [], pressureData := []
               loading := false, error := false }
    ∧ (cycleTrace initialState okOutcome allFieldsOrder)[3]?
      = some { temperatureData := [{ time := 0, value := some 20 }]
               humidityData := [], pressureData := []
               loading := false, error := false } := by
  exact ⟨rfl, rfl⟩

/-- Claim C10 (implicit frame property): when a single metric fetch for field
`f` completes successfully, only that metric's series is replaced — wholesale,
with the freshly built point list — while the other two series, the error flag
and the loading flag are left unchanged. -/
theorem C10_success_frame (st : AppState) (f g : MetricField) (rows : List Row)
    (hg : g ≠ f) :
    getSeries (applyOutcome st f (some rows)) f = processRows rows
    ∧ getSeries (applyOutcome st f (some rows)) g = getSeries st g
    ∧ (applyOutcome st f (some rows)).error = st.error
    ∧ (applyOutcome st f (some rows)).loading = st.loading := by
  exact ⟨getSeries_setSeries_same st f _,
    getSeries_applyOutcome_other st f g _ hg,
    applyOutcome_error_some st f rows,
    applyOutcome_loading st f (some rows)⟩

/-- Witness for C10: a successful temperature fetch leaves the humidity series
of the initial state untouched and fills the temperature series. -/
theorem C10_success_frame_witness :
    getSeries (applyOutcome initialState MetricField.temperature
      (some [{ time := 0, value := some 20 }])) MetricField.temperature
      = [{ time := 0, value := some 20 }]
    ∧ getSeries (applyOutcome initialState MetricField.temperature
        (some [{ time := 0, value := some 20 }])) MetricField.humidity = []
    ∧ (applyOutcome initialState MetricField.temperature
        (some [{ time := 0, value := some 20 }])).error = false
    ∧ (applyOutcome initialState MetricField.temperature
        (some [{ time := 0, value := some 20 }])).loading = true := by
  have h := C10_success_frame initialState MetricField.temperature
    MetricField.humidity [{ time := 0, value := some 20 }] (by simp)
  exact ⟨by rw [h.1]; rfl, h.2.1, h.2.2.1, h.2.2.2⟩

/-- Lifecycle events of the polling `useEffect`: `mount` runs the effect body
(the immediate `fetchData()` call and `setInterval(fetchData, 60000)`);
`tick` is an expiry of the 60-second interval timer, which invokes `fetchData`
only while the interval is registered — `clearInterval` cancels all future
callbacks; `unmount` runs the cleanup, `clearInterval(interval)`. -/
inductive LifecycleEvent
  | mount
  | tick
  | unmount
deriving Repr, DecidableEq

/-- Whether the interval is registered after an event: `setInterval` on mount,
`clearInterval` on unmount. -/
def intervalAfter (active : Bool) : LifecycleEvent → Bool
  | .mount => true
  | .tick => active
  | .unmount => false

/-- How many poll cycles an event fires: mounting fires the initial
`fetchData()`; a timer expiry fires one cycle exactly when the interval is
still registered; the cleanup fires none. -/
def cyclesFiredBy (active : Bool) : LifecycleEvent → ℕ
  | .mount => 1
  | .tick => if active then 1 else 0
  | .unmount => 0

/-- Total number of poll cycles fired along a lifecycle event sequence,
starting with the interval registration state `active`. -/
def countCycles (active : Bool) : List LifecycleEvent → ℕ
  | [] => 0
  | e :: rest => cyclesFiredBy active e + countCycles (intervalAfter active e) rest

theorem countCycles_of_no_mount (post : List LifecycleEvent)
    (h : LifecycleEvent.mount ∉ post) : countCycles false post = 0 := by
  induction post with
  | nil => rfl
  | cons e rest ih =>
    have he : e ≠ LifecycleEvent.mount := fun hm => h (hm ▸ List.mem_cons_self e rest)
    have hrest := ih fun hm => h (List.mem_cons_of_mem _ hm)
    cases e with
    | mount => exact absurd rfl he
    | tick => simpa [countCycles, cyclesFiredBy, intervalAfter] using hrest
    | unmount => simpa [countCycles, cyclesFiredBy, intervalAfter] using hrest

theorem countCycles_append (a b : List LifecycleEvent) (active : Bool) :
    countCycles active (a ++ b) =
      countCycles active a + countCycles (a.foldl intervalAfter active) b := by
  induction a generalizing active with
  | nil => simp [countCycles]
  | cons e rest ih => simp [countCycles, ih, Nat.add_assoc]

/-- Claim C8: once the view is torn down, no further poll cycle fires. For any
lifecycle run `pre ++ [unmount] ++ post` in which the view is not mounted
again, the cycles fired over the whole run are exactly the cycles fired during
`pre`: the cleanup's `clearInterval` cancels the pending 60-second interval,
so the ticks after teardown fire nothing — cycle N+1 never runs. -/
theorem C8_no_cycle_after_teardown (pre post : List LifecycleEvent)
    (h : LifecycleEvent.mount ∉ post) :
    countCycles false (pre ++ LifecycleEvent.unmount :: post)
      = countCycles false pre := by
  rw [countCycles_append]
  have : countCycles (pre.foldl intervalAfter false)
      (LifecycleEvent.unmount :: post) = 0 := by
    rw [countCycles]
    simpa [cyclesFiredBy, intervalAfter] using countCycles_of_no_mount post h
  rw [this, Nat.add_zero]

/-- Witness for C8: mount, two timer ticks, teardown, then two more timer
expiries — exactly three cycles fire, none after the teardown. -/
theorem C8_no_cycle_after_teardown_witness :
    countCycles false
      ([.mount, .tick, .tick] ++ LifecycleEvent.unmount :: [.tick, .tick]) = 3 := by
  rw [C8_no_cycle_after_teardown [.mount, .tick, .tick] [.tick, .tick] (by decide)]
  decide

/-- The process environment seen by the config module: the four
`REACT_APP_INFLUXDB_*` variables, each possibly undefined. -/
structure ProcessEnv where
  influxdbUrl : Option String
  influxdbOrg : Option String
  influxdbBucket : Option String
  influxdbToken : Option String
deriving Repr, DecidableEq

/-- JavaScript `x || ''` on a possibly-undefined string: `undefined` and the
empty string are both falsy, so each yields `''`; any other string is kept. -/
def orEmpty : Option String → String
  | none => ""
  | some s => if s = "" then "" else s

/-- `config.influxDB`: the four connection parameters. -/
structure ConnectionConfig where
  url : String
  org : String
  bucket : String
  token : String
deriving Repr, DecidableEq

/-- The config module: each parameter is its environment variable with
`|| ''` applied. -/
def resolveConfig (env : ProcessEnv) : ConnectionConfig :=
  { url := orEmpty env.influxdbUrl
    org := orEmpty env.influxdbOrg
    bucket := orEmpty env.influxdbBucket
    token := orEmpty env.influxdbToken }

/-- The flux query template literal of `fetchInfluxData`, with the bucket and
field name interpolated. -/
def fluxQuery (bucket fieldName : String) : String :=
  "\n      from(bucket: \"" ++ bucket ++ "\")\n        |> range(start: -24h)\n        |> filter(fn: (r) => r._measurement == \"ac_remote\" and r.client_id == \"ESP32Client-4f1da0d8\")\n        |> filter(fn: (r) => r._field == \"" ++ fieldName ++ "\")\n        |> aggregateWindow(every: 5m, fn: mean)\n        |> yield(name: \"mean\")\n    "

/-- The query `fetchInfluxData` sends for a field: `some q` means the query
`q` is issued against the database. The source has no guard on the connection
parameters — `fetchInfluxData` builds the query string and calls `queryRows`
unconditionally — so this is `some` for every configuration; a fail-fast
configuration check would return `none` on a missing/empty parameter. -/
def issuedQuery (cfg : ConnectionConfig) (fieldName : String) : Option String :=
  some (fluxQuery cfg.bucket fieldName)

/-- The environment with all four variables undefined. -/
def emptyEnv : ProcessEnv :=
  { influxdbUrl := none, influxdbOrg := none
    influxdbBucket := none, influxdbToken := none }

/-- Claim C7, counterexample: with every environment variable absent, the
resolved configuration is four empty strings, yet a query is still issued —
the missing parameters are silently tolerated, not treated as a fail-fast
configuration error. -/
theorem C7_no_fail_fast_counterexample :
    resolveConfig emptyEnv = { url := "", org := "", bucket := "", token := "" }
    ∧ issuedQuery (resolveConfig emptyEnv) "temperature" ≠ none := by
  exact ⟨rfl, by simp [issuedQuery]⟩

/-- Claim C7, amended: each of the four connection parameters resolves to the
corresponding environment value when it is present and non-empty, and to the
empty string when it is absent; a missing or empty parameter is NOT treated as
a configuration error — the code issues the query with the empty credentials
(`issuedQuery` is `some` for every configuration), and any failure surfaces
only later through the query-level error callback. -/
theorem C7_config_resolution (env : ProcessEnv) :
    (env.influxdbUrl = none → (resolveConfig env).url = "")
    ∧ (∀ s, env.influxdbUrl = some s → s ≠ "" → (resolveConfig env).url = s)
    ∧ (env.influxdbOrg = none → (resolveConfig env).org = "")
    ∧ (∀ s, env.influxdbOrg = some s → s ≠ "" → (resolveConfig env).org = s)
    ∧ (env.influxdbBucket = none → (resolveConfig env).bucket = "")
    ∧ (∀ s, env.influxdbBucket = some s → s ≠ "" → (resolveConfig env).bucket = s)
    ∧ (env.influxdbToken = none → (resolveConfig env).token = "")
    ∧ (∀ s, env.influxdbToken = some s → s ≠ "" → (resolveConfig env).token = s)
    ∧ ∀ fieldName, issuedQuery (resolveConfig env) fieldName
        = some (fluxQuery (resolveConfig env).bucket fieldName) := by
  refine ⟨?_, ?_, ?_, ?_, ?_, ?_, ?_, ?_, fun _ => rfl⟩ <;>
    first
      | (intro h; simp [resolveConfig, h, orEmpty])
      | (intro s hs hne; simp [resolveConfig, hs, orEmpty, hne])

/-- An environment where only the URL variable is set. -/
def urlOnlyEnv : ProcessEnv :=
  { influxdbUrl := some "https://example.com"
    influxdbOrg := none, influxdbBucket := none, influxdbToken := none }

/-- Witness for C7 (amended) at a concrete environment: the URL is present
and kept, the other three variables are absent and resolve to the empty
string, and the query is issued regardless. -/
theorem C7_config_resolution_witness :
    (resolveConfig urlOnlyEnv).url = "https://example.com"
    ∧ (resolveConfig urlOnlyEnv).org = ""
    ∧ issuedQuery (resolveConfig urlOnlyEnv) "temperature"
      = some (fluxQuery (resolveConfig urlOnlyEnv).bucket "temperature") := by
  have h := C7_config_resolution urlOnlyEnv
  exact ⟨h.2.1 "https://example.com" rfl (by decide), h.2.2.1 rfl,
    h.2.2.2.2.2.2.2.2 "temperature"⟩

/-- What the App component renders at top level: the loading message, the
failure message, or the Ready view carrying the updated-at indicator text. -/
inductive RootView
  | loadingMessage
  | errorMessage
  | ready (updatedAt : String)
deriving Repr, DecidableEq

/-- The "Updated at" indicator of the Ready branch:
`temperatureData.length > 0 ? toLocaleString(last point's time) : 'N/A'`,
with the locale formatting of an epoch-millisecond timestamp modelled by the
parameter `fmt`. For a non-empty list, `data[data.length - 1]` is its last
element. -/
def updatedAtDisplay (fmt : Int → String) (data : List ChartData) : String :=
  if 0 < data.length then
    match data.getLast? with
    | some p => fmt p.time
    | none => "N/A"
  else "N/A"

/-- The top-level render of `App`: loading message while `loading` is set,
otherwise the failure message when `error` is set, otherwise the Ready view
with the updated-at indicator computed from the temperature series. -/
def renderRoot (fmt : Int → String) (st : AppState) : RootView :=
  if st.loading then RootView.loadingMessage
  else if st.error then RootView.errorMessage
  else RootView.ready (updatedAtDisplay fmt st.temperatureData)

/-- Claim C9: whenever the view is in the Ready state (loading and error both
clear) and the temperature series is non-empty, the updated-at indicator shows
the formatted timestamp of the last point of the temperature series; when the
temperature series is empty it shows the placeholder `"N/A"`. -/
theorem C9_updated_at_indicator (fmt : Int → String) (st : AppState)
    (hl : st.loading = false) (he : st.error = false) :
    (∀ l p, st.temperatureData = l ++ [p] →
        renderRoot fmt st = RootView.ready (fmt p.time))
    ∧ (st.temperatureData = [] → renderRoot fmt st = RootView.ready "N/A") := by
  constructor
  · intro l p hdata
    rw [renderRoot, hl, he]
    simp [updatedAtDisplay, hdata, List.getLast?_concat]
  · intro hdata
    rw [renderRoot, hl, he]
    simp [updatedAtDisplay, hdata]

/-- Witness for C9: a Ready state whose temperature series ends at timestamp 5
displays the formatted 5; a Ready state with an empty temperature series
displays `"N/A"`. -/
theorem C9_updated_at_indicator_witness :
    renderRoot (fun t => toString t)
      { temperatureData := [{ time := 3, value := some 1 }, { time := 5, value := none }]
        humidityData := [], pressureData := [], loading := false, error := false }
      = RootView.ready "5"
    ∧ renderRoot (fun t => toString t)
      { temperatureData := [], humidityData := [], pressureData := []
        loading := false, error := false }
      = RootView.ready "N/A" := by
  constructor
  · have h := (C9_updated_at_indicator (fun t => toString t)
      { temperatureData := [{ time := 3, value := some 1 }, { time := 5, value := none }]
        humidityData := [], pressureData := [], loading := false, error := false }
      rfl rfl).1 [{ time := 3, value := some 1 }] { time := 5, value := none } rfl
    rw [h]; rfl
  · exact (C9_updated_at_indicator (fun t => toString t)
      { temperatureData := [], humidityData := [], pressureData := []
        loading := false, error := false } rfl rfl).2 rfl

end EnvMonitor
